import Mathlib

/-!
Verification of the core Raft state machine of this repository
(`src/raft/raft.go`, both file versions) against its specification.

The per-node `raft` struct and all functions of `raft.go` are embedded as
executable Lean definitions.  The collaborating modules that the repository
uses but that are not part of the given sources (the log store `raftLog`,
the per-peer `Progress` tracker and its `inflights` window) are modelled
from the specification, as marked in their doc comments.  Go `uint64`
values are modelled as `Nat` (no arithmetic in the embedded code paths can
overflow 64 bits for protocol-sized inputs), Go maps as association lists
with unique keys, and Go panics as `Except.error`.
-/

/-- Role of a node in the cluster (`StateType` in raft.go). -/
inductive StateType where
  | StateFollower
  | StateCandidate
  | StateLeader
deriving DecidableEq, Repr

/-- Replication mode of a peer (`ProgressStateType` in the progress module). -/
inductive ProgressStateType where
  | ProgressStateProbe
  | ProgressStateReplicate
  | ProgressStateSnapshot
deriving DecidableEq, Repr

/-- Kind of a log entry (`pb.EntryType`). -/
inductive EntryType where
  | EntryNormal
  | EntryConfChange
deriving DecidableEq, Repr

/-- A replicated-log entry (`pb.Entry`); the payload bytes are a list of byte values. -/
structure Entry where
  Term : Nat := 0
  Index : Nat := 0
  EType : EntryType := .EntryNormal
  Data : List Nat := []
deriving DecidableEq, Repr

/-- Snapshot metadata (`pb.SnapshotMetadata`), with the configuration node set inlined. -/
structure SnapshotMetadata where
  Index : Nat := 0
  Term : Nat := 0
  Nodes : List Nat := []
deriving DecidableEq, Repr

/-- A snapshot (`pb.Snapshot`); only the metadata is relevant to the state machine. -/
structure Snapshot where
  Metadata : SnapshotMetadata := {}
deriving DecidableEq, Repr

/-- Message kinds dispatched through `Step` (`pb.MessageType`). -/
inductive MessageType where
  | MsgHup
  | MsgBeat
  | MsgProp
  | MsgApp
  | MsgAppResp
  | MsgVote
  | MsgVoteResp
  | MsgSnap
  | MsgHeartbeat
  | MsgHeartbeatResp
  | MsgUnreachable
  | MsgSnapStatus
  | MsgCheckQuorum
  | MsgTransferLeader
  | MsgTimeoutNow
  | MsgReadIndex
  | MsgReadIndexResp
deriving DecidableEq, Repr

/-- A protocol message (`pb.Message`).  The Go field `Type` is written `MType`. -/
structure Message where
  MType : MessageType := .MsgHup
  To : Nat := 0
  From : Nat := 0
  Term : Nat := 0
  LogTerm : Nat := 0
  Index : Nat := 0
  Entries : List Entry := []
  Commit : Nat := 0
  Snapshot : Snapshot := {}
  Reject : Bool := false
  RejectHint : Nat := 0
deriving DecidableEq, Repr

/-- `math.MaxUint64`, used as the unlimited message size (`noLimit` in raft.go). -/
def noLimit : Nat := 18446744073709551615

/-- Modelled from the spec (§4.1, the inflights module is not under src/):
fixed-capacity FIFO of ascending in-flight append tail indices. -/
structure Inflights where
  size : Nat := 0
  buffer : List Nat := []
deriving DecidableEq, Repr

/-- Modelled from the spec: a fresh empty window of the given capacity. -/
def newInflights (size : Nat) : Inflights := { size := size, buffer := [] }

/-- Modelled from the spec: the window is full when it holds `size` indices. -/
def Inflights.full (ins : Inflights) : Bool := ins.buffer.length ≥ ins.size

/-- Modelled from the spec: `add(i)` appends an index (callers respect `!full()`). -/
def Inflights.add (ins : Inflights) (i : Nat) : Inflights :=
  { ins with buffer := ins.buffer ++ [i] }

/-- Modelled from the spec: `free_to(i)` pops the longest prefix of indices `≤ i`. -/
def Inflights.freeTo (ins : Inflights) (toIdx : Nat) : Inflights :=
  { ins with buffer := ins.buffer.dropWhile (fun j => j ≤ toIdx) }

/-- Modelled from the spec: `free_first()` pops one index. -/
def Inflights.freeFirstOne (ins : Inflights) : Inflights :=
  { ins with buffer := ins.buffer.drop 1 }

/-- Modelled from the spec (§4.2, the progress module is not under src/):
per-peer replication progress as used by the leader. -/
structure Progress where
  Match : Nat := 0
  Next : Nat := 0
  State : ProgressStateType := .ProgressStateProbe
  Paused : Bool := false
  PendingSnapshot : Nat := 0
  RecentActive : Bool := false
  ins : Inflights := {}
deriving DecidableEq, Repr

/-- Modelled from the spec: entering a mode clears pause state, the pending
snapshot and the inflight window. -/
def Progress.resetState (pr : Progress) (s : ProgressStateType) : Progress :=
  { pr with State := s, Paused := false, PendingSnapshot := 0,
            ins := newInflights pr.ins.size }

/-- Modelled from the spec (§4.2 transition table): `* → Probe`; coming out of
Snapshot mode the probe resumes after the pending snapshot, preserving `match < next`. -/
def Progress.becomeProbe (pr : Progress) : Progress :=
  if pr.State = .ProgressStateSnapshot then
    let pendingSnapshot := pr.PendingSnapshot
    { pr.resetState .ProgressStateProbe with Next := max (pr.Match + 1) (pendingSnapshot + 1) }
  else
    { pr.resetState .ProgressStateProbe with Next := pr.Match + 1 }

/-- Modelled from the spec (§4.2): Probe → Replicate on a successful ack. -/
def Progress.becomeReplicate (pr : Progress) : Progress :=
  { pr.resetState .ProgressStateReplicate with Next := pr.Match + 1 }

/-- Modelled from the spec (§4.2): `become_snapshot(i)` records the pending snapshot index. -/
def Progress.becomeSnapshot (pr : Progress) (snapshoti : Nat) : Progress :=
  { pr.resetState .ProgressStateSnapshot with PendingSnapshot := snapshoti }

/-- Modelled from the spec (§4.2): `maybe_update(i)`: if `i > match`, set
`match = i`, ensure `next ≥ match+1`, clear `paused`, return true. -/
def Progress.maybeUpdate (pr : Progress) (n : Nat) : Bool × Progress :=
  if pr.Match < n then
    (true, { pr with Match := n, Next := max pr.Next (n + 1), Paused := false })
  else
    (false, pr)

/-- Modelled from the spec (§4.2): `optimistic_update(last)` sets `next = last+1`. -/
def Progress.optimisticUpdate (pr : Progress) (n : Nat) : Progress :=
  { pr with Next := n + 1 }

/-- Modelled from the spec (§4.2): `maybe_decr_to(rejected, hint)`.  In
Replicate mode, a rejection below `match` is ignored and otherwise `next`
falls back to `max(match+1, min(rejected, hint+1))`; in the other modes only
a rejection of exactly `next-1` decrements, to `max(match+1, hint+1)`. -/
def Progress.maybeDecrTo (pr : Progress) (rejected hint : Nat) : Bool × Progress :=
  if pr.State = .ProgressStateReplicate then
    if rejected < pr.Match then
      (false, pr)
    else
      (true, { pr with Next := max (pr.Match + 1) (min rejected (hint + 1)), Paused := false })
  else
    if rejected + 1 = pr.Next then
      (true, { pr with Next := max (pr.Match + 1) (hint + 1), Paused := false })
    else
      (false, pr)

/-- Modelled from the spec (§4.2): `pause()`. -/
def Progress.pause (pr : Progress) : Progress := { pr with Paused := true }

/-- Modelled from the spec (§4.2): `resume()`. -/
def Progress.resume (pr : Progress) : Progress := { pr with Paused := false }

/-- Modelled from the spec (§4.2): `is_paused()` is
`paused ∨ mode = Snapshot ∨ (mode = Replicate ∧ inflights full)`. -/
def Progress.isPaused (pr : Progress) : Bool :=
  pr.Paused || pr.State = .ProgressStateSnapshot ||
    (pr.State = .ProgressStateReplicate && pr.ins.full)

/-- Modelled from the spec (§4.2): a snapshot becomes unnecessary once the
peer's match caught up to the pending snapshot. -/
def Progress.needSnapshotAbort (pr : Progress) : Bool :=
  pr.State = .ProgressStateSnapshot && pr.Match ≥ pr.PendingSnapshot

/-- Modelled from the spec (§4.2): a failed snapshot clears the pending snapshot index. -/
def Progress.snapshotFailure (pr : Progress) : Progress := { pr with PendingSnapshot := 0 }

/-- Modelled from the spec (§4.3, log.go is not under src/): the unified view
of the replicated log.  The stable/unstable split is not observable by any of
the claims and is collapsed into a single entry list above the snapshot
boundary; `ents` holds the entries with indices `snapIndex+1, snapIndex+2, …`.
The `Compacted`/`Unavailable` lookup failures are both rendered as `none`
because no caller in raft.go distinguishes them. -/
structure raftLog where
  snapIndex : Nat := 0
  snapTerm : Nat := 0
  snapNodes : List Nat := []
  ents : List Entry := []
  committed : Nat := 0
  applied : Nat := 0
deriving DecidableEq, Repr

/-- Modelled from the spec: `last_index = snap_index + number of entries`. -/
def raftLog.lastIndex (l : raftLog) : Nat := l.snapIndex + l.ents.length

/-- Modelled from the spec: `first_index = snap_index + 1`. -/
def raftLog.firstIndex (l : raftLog) : Nat := l.snapIndex + 1

/-- Modelled from the spec: `term(i)` consults the entries, answering the
snapshot term at the boundary; `none` stands for `Compacted` (below the
boundary) and `Unavailable` (above the last index). -/
def raftLog.term (l : raftLog) (i : Nat) : Option Nat :=
  if i < l.snapIndex then none
  else if i = l.snapIndex then some l.snapTerm
  else if i ≤ l.lastIndex then some ((l.ents.getD (i - l.snapIndex - 1) {}).Term)
  else none

/-- Modelled from the spec: term of the last entry. -/
def raftLog.lastTerm (l : raftLog) : Nat :=
  match l.ents.getLast? with
  | some e => e.Term
  | none => l.snapTerm

/-- Modelled from the spec: whether the entry at `i` exists and carries term `t`. -/
def raftLog.matchTerm (l : raftLog) (i t : Nat) : Bool := l.term i == some t

/-- Modelled from the spec (§4.3 `entries`): keep a prefix whose payload
size stays within `maxSize` but never fewer than one entry. -/
def limitSize (maxSize : Nat) : List Entry → List Entry
  | [] => []
  | e :: rest => e :: takeSize (maxSize - e.Data.length) rest
where
  takeSize (budget : Nat) : List Entry → List Entry
    | [] => []
    | e :: rest =>
        if e.Data.length ≤ budget then e :: takeSize (budget - e.Data.length) rest
        else []

/-- Modelled from the spec: `entries(lo, max_bytes)` returns the suffix from
`lo`, size-limited; empty above the last index, `Compacted` (`none`) at or
below the snapshot boundary. -/
def raftLog.entries (l : raftLog) (lo maxSize : Nat) : Option (List Entry) :=
  if lo > l.lastIndex then some []
  else if lo ≤ l.snapIndex then none
  else some (limitSize maxSize (l.ents.drop (lo - l.snapIndex - 1)))

/-- Modelled from the spec: `append` truncates at the first new index and
appends; entries are kept contiguous. -/
def raftLog.append (l : raftLog) (es : List Entry) : raftLog :=
  match es with
  | [] => l
  | e :: _ => { l with ents := l.ents.take (e.Index - l.snapIndex - 1) ++ es }

/-- Modelled from the spec: `commit_to(i)` advances `committed` to `i` when
`i > committed`; committing past the last index is a panic (`error`). -/
def raftLog.commitTo (l : raftLog) (tocommit : Nat) : Except String raftLog :=
  if l.committed < tocommit then
    if l.lastIndex < tocommit then .error "tocommit is out of range"
    else .ok { l with committed := tocommit }
  else .ok l

/-- Modelled from the spec (§4.3): `maybe_commit(index, term)`: if
`index > committed` and `term(index) == term`, advance commit; return
whether it changed. -/
def raftLog.maybeCommit (l : raftLog) (maxIndex term : Nat) : Bool × raftLog :=
  if l.committed < maxIndex ∧ l.term maxIndex = some term then
    (true, { l with committed := maxIndex })
  else
    (false, l)

/-- Modelled from the spec (§4.3): `maybe_append(prev_index, prev_term,
committed_hint, ents)`: reject on a term mismatch at `prev_index`; otherwise
truncate at the first conflicting entry, append the remaining suffix and
commit to `min(committed_hint, last_new_index)`; answer the new last index. -/
def raftLog.maybeAppend (l : raftLog) (idx logTerm committedHint : Nat)
    (es : List Entry) : Option Nat × raftLog :=
  if l.matchTerm idx logTerm then
    let lastnewi := idx + es.length
    let l1 :=
      match es.find? (fun e => ! l.matchTerm e.Index e.Term) with
      | none => l
      | some e => l.append (es.drop (e.Index - idx - 1))
    let tocommit := min committedHint lastnewi
    let l2 := if l1.committed < tocommit then { l1 with committed := tocommit } else l1
    (some lastnewi, l2)
  else
    (none, l)

/-- Modelled from the spec (§4.3 `restore`): drop all entries, move the
snapshot boundary and the commit index to the snapshot. -/
def raftLog.restore (l : raftLog) (s : Snapshot) : raftLog :=
  { snapIndex := s.Metadata.Index, snapTerm := s.Metadata.Term,
    snapNodes := s.Metadata.Nodes, ents := [],
    committed := s.Metadata.Index, applied := l.applied }

/-- Modelled from the spec (§4.3): the candidate log is at least as
up-to-date iff its last term is larger, or equal with at least our last index. -/
def raftLog.isUpToDate (l : raftLog) (lasti term : Nat) : Bool :=
  term > l.lastTerm || (term == l.lastTerm && lasti ≥ l.lastIndex)

/-- Modelled from the spec: the snapshot the leader would send; the storage
collaborator is abstracted as always having the boundary snapshot available. -/
def raftLog.snapshot (l : raftLog) : Except String Snapshot :=
  .ok { Metadata := { Index := l.snapIndex, Term := l.snapTerm, Nodes := l.snapNodes } }

/-- Read state served back for `MsgReadIndex` requests (`ReadState` in raft.go). -/
structure ReadState where
  Index : Nat := 0
  RequestCtx : List Nat := []
deriving DecidableEq, Repr

/-- Configuration for starting a raft node (`Config` in raft.go).  The Go tick
fields are `int` and may be nonpositive, hence `Int`; the storage and logger
references are abstracted to presence flags. -/
structure Config where
  ID : Nat := 0
  peers : List Nat := []
  ElectionTick : Int := 0
  HeartbeatTick : Int := 0
  StoragePresent : Bool := false
  Applied : Nat := 0
  MaxSizePerMsg : Nat := 0
  MaxInflightMsgs : Int := 0
  CheckQuorum : Bool := false
  LoggerPresent : Bool := false
deriving DecidableEq, Repr

/-- `Config.validate` from raft.go: `some msg` is the returned error, `none`
is success (a nil logger is defaulted, not an error). -/
def Config.validate (c : Config) : Option String :=
  if c.ID = 0 then some "cannot use none as id"
  else if c.HeartbeatTick ≤ 0 then some "heartbeat tick must be greater than 0"
  else if c.ElectionTick ≤ c.HeartbeatTick then
    some "election tick must be greater than heartbeat tick"
  else if ¬ c.StoragePresent then some "storage cannot be nil"
  else if c.MaxInflightMsgs ≤ 0 then some "max inflight messages must be greater than 0"
  else none

/-- Per-node Raft state (`raft` struct in raft.go).  The `step`/`tick`
function pointers of the Go struct are determined by `state` and are not
stored; the random generator is modelled as a stream of naturals consumed by
`Intn`; `None` node/leader ids are the literal `0`. -/
structure raft where
  id : Nat := 0
  Term : Nat := 0
  Vote : Nat := 0
  readState : ReadState := {}
  raftLog : raftLog := {}
  maxInflight : Nat := 0
  maxMsgSize : Nat := 0
  prs : List (Nat × Progress) := []
  state : StateType := .StateFollower
  votes : List (Nat × Bool) := []
  msgs : List Message := []
  lead : Nat := 0
  leadTransferee : Nat := 0
  pendingConf : Bool := false
  electionElapsed : Nat := 0
  heartbeatElapsed : Nat := 0
  checkQuorum : Bool := false
  heartbeatTimeout : Nat := 0
  electionTimeout : Nat := 0
  randomizedElectionTimeout : Nat := 0
  rng : List Nat := []
deriving DecidableEq, Repr

/-- Association-list lookup standing for Go map indexing `r.prs[id]`. -/
def prsLookup (prs : List (Nat × Progress)) (id : Nat) : Option Progress :=
  (prs.find? (fun p => p.1 == id)).map (fun p => p.2)

/-- Association-list update standing for Go map assignment through the
`*Progress` pointer held in the map. -/
def raft.updatePr (r : raft) (id : Nat) (f : Progress → Progress) : raft :=
  { r with prs := r.prs.map (fun p => if p.1 == id then (p.1, f p.2) else p) }

/-- `r.quorum()`. -/
def raft.quorum (r : raft) : Nat := r.prs.length / 2 + 1

/-- `r.hasLeader()`. -/
def raft.hasLeader (r : raft) : Bool := r.lead ≠ 0

/-- `r.promotable()`: whether the node's own id is in the progress map. -/
def raft.promotable (r : raft) : Bool := (prsLookup r.prs r.id).isSome

/-- `r.send(m)`: stamp the sender and (except for proposals) the current term,
and append to the outbound buffer. -/
def raft.send (r : raft) (m : Message) : raft :=
  let m := { m with From := r.id,
                    Term := if m.MType = .MsgProp then m.Term else r.Term }
  { r with msgs := r.msgs ++ [m] }

/-- `r.sendHeartbeat(to)`: heartbeat carrying
`commit = min(r.prs[to].Match, r.raftLog.committed)`; indexing a missing
progress entry is a nil dereference in Go (`error` here). -/
def raft.sendHeartbeat (r : raft) (toId : Nat) : Except String raft :=
  match prsLookup r.prs toId with
  | none => .error "sendHeartbeat: no progress"
  | some pr =>
      let commit := min pr.Match r.raftLog.committed
      .ok (r.send { MType := .MsgHeartbeat, To := toId, Commit := commit })

/-- `r.sendAppend(to)`: send entries, or fall back to a snapshot when the
needed entries are compacted; paused peers are skipped. -/
def raft.sendAppend (r : raft) (toId : Nat) : Except String raft :=
  match prsLookup r.prs toId with
  | none => .error "sendAppend: no progress"
  | some pr =>
    if pr.isPaused then .ok r
    else
      match r.raftLog.term (pr.Next - 1), r.raftLog.entries pr.Next r.maxMsgSize with
      | some trm, some ents =>
          let r1 : raft :=
            if ents.length ≠ 0 then
              match pr.State with
              | .ProgressStateReplicate =>
                  let last := ((ents.getLast?).map Entry.Index).getD 0
                  r.updatePr toId (fun q => { q.optimisticUpdate last with ins := q.ins.add last })
              | .ProgressStateProbe => r.updatePr toId Progress.pause
              | .ProgressStateSnapshot => r
            else r
          if ents.length ≠ 0 ∧ pr.State = .ProgressStateSnapshot then
            .error "is sending append in unhandled state"
          else
            .ok (r1.send { MType := .MsgApp, To := toId, Index := pr.Next - 1,
                           LogTerm := trm, Entries := ents, Commit := r.raftLog.committed })
      | _, _ =>
          if ¬ pr.RecentActive then .ok r
          else
            match r.raftLog.snapshot with
            | .error e => .error e
            | .ok snapshot =>
                if snapshot.Metadata.Index = 0 then .error "need non-empty snapshot"
                else
                  let r1 := r.updatePr toId (fun q => q.becomeSnapshot snapshot.Metadata.Index)
                  .ok (r1.send { MType := .MsgSnap, To := toId, Snapshot := snapshot })

/-- Iteration of `sendAppend` over the ids of the progress map, skipping
self: the loop body of `bcastAppend`. -/
def raft.sendAppendAll (r : raft) : List Nat → Except String raft
  | [] => .ok r
  | id :: ids =>
      if id = r.id then r.sendAppendAll ids
      else
        match r.sendAppend id with
        | .error e => .error e
        | .ok r1 => r1.sendAppendAll ids

/-- `r.bcastAppend()`. -/
def raft.bcastAppend (r : raft) : Except String raft :=
  r.sendAppendAll (r.prs.map (fun p => p.1))

/-- Loop body of `bcastHeartbeat`: heartbeat each peer, then `resume()` it. -/
def raft.sendHeartbeatAll (r : raft) : List Nat → Except String raft
  | [] => .ok r
  | id :: ids =>
      if id = r.id then r.sendHeartbeatAll ids
      else
        match r.sendHeartbeat id with
        | .error e => .error e
        | .ok r1 => (r1.updatePr id Progress.resume).sendHeartbeatAll ids

/-- `r.bcastHeartbeat()`. -/
def raft.bcastHeartbeat (r : raft) : Except String raft :=
  r.sendHeartbeatAll (r.prs.map (fun p => p.1))

/-- Insertion into a descending-sorted list of match indices. -/
def insertDesc (x : Nat) : List Nat → List Nat
  | [] => [x]
  | y :: ys => if x ≥ y then x :: y :: ys else y :: insertDesc x ys

/-- Descending sort (`sort.Sort(sort.Reverse(mis))` in `maybeCommit`). -/
def sortDesc : List Nat → List Nat
  | [] => []
  | x :: xs => insertDesc x (sortDesc xs)

/-- The commit candidate `mci`: the rank-`quorum-1` entry of the
descending-sorted match indices, `none` when the progress map is empty
(indexing an empty slice panics in Go). -/
def raft.commitCandidate (r : raft) : Option Nat :=
  (sortDesc (r.prs.map (fun p => p.2.Match))).get? (r.quorum - 1)

/-- `r.maybeCommit()` as in the first raft.go version: compute `mci` and call
`raftLog.maybeCommit(mci, r.Term)` once, returning whether commit advanced. -/
def raft.maybeCommit (r : raft) : Except String (Bool × raft) :=
  match r.commitCandidate with
  | none => .error "maybeCommit: index out of range"
  | some mci =>
      let p := r.raftLog.maybeCommit mci r.Term
      .ok (p.1, { r with raftLog := p.2 })

/-- `r.maybeCommit()` as in the second raft.go version (the dinv-instrumented
file): `commited := r.raftLog.maybeCommit(mci, r.Term)` is computed and
discarded, and the function returns the result of a SECOND
`r.raftLog.maybeCommit(mci, r.Term)` call on the already-updated log. -/
def raft.maybeCommitDinv (r : raft) : Except String (Bool × raft) :=
  match r.commitCandidate with
  | none => .error "maybeCommit: index out of range"
  | some mci =>
      let first := r.raftLog.maybeCommit mci r.Term
      let second := first.2.maybeCommit mci r.Term
      .ok (second.1, { r with raftLog := second.2 })

/-- `r.resetRandomizedElectionTimeout()`:
`r.electionTimeout + r.rand.Intn(r.electionTimeout)`; `Intn` consumes one
value of the random stream and panics on a nonpositive bound. -/
def raft.resetRandomizedElectionTimeout (r : raft) : Except String raft :=
  if r.electionTimeout = 0 then .error "Intn: nonpositive bound"
  else .ok { r with
    randomizedElectionTimeout := r.electionTimeout + (r.rng.headD 0) % r.electionTimeout,
    rng := r.rng.tail }

/-- `r.abortLeaderTransfer()`. -/
def raft.abortLeaderTransfer (r : raft) : raft := { r with leadTransferee := 0 }

/-- `r.reset(term)`: adopt the term (clearing the vote when it changes),
forget the leader, restart timers, abort transfers, clear tallies, rebuild
every progress entry fresh and clear `pendingConf`. -/
def raft.reset (r : raft) (term : Nat) : Except String raft := do
  let r := if r.Term ≠ term then { r with Term := term, Vote := 0 } else r
  let r := { r with lead := 0, electionElapsed := 0, heartbeatElapsed := 0 }
  let r ← r.resetRandomizedElectionTimeout
  let r := r.abortLeaderTransfer
  let r := { r with votes := [] }
  let li := r.raftLog.lastIndex
  let r := { r with prs := r.prs.map (fun p : Nat × Progress =>
      (p.1, { Next := li + 1,
              Match := if p.1 = r.id then li else 0,
              ins := newInflights r.maxInflight : Progress })) }
  .ok { r with pendingConf := false }

/-- `r.setProgress(id, match, next)`. -/
def raft.setProgress (r : raft) (id mtch next : Nat) : raft :=
  let pr : Progress := { Next := next, Match := mtch, ins := newInflights r.maxInflight }
  if (prsLookup r.prs id).isSome then
    { r with prs := r.prs.map (fun p => if p.1 == id then (id, pr) else p) }
  else
    { r with prs := r.prs ++ [(id, pr)] }

/-- `r.delProgress(id)`. -/
def raft.delProgress (r : raft) (id : Nat) : raft :=
  { r with prs := r.prs.filter (fun p => p.1 != id) }

/-- `r.appendEntry(es...)`: stamp term and consecutive indices, append to the
log, update the leader's own progress and try to commit. -/
def raft.appendEntry (r : raft) (es : List Entry) : Except String raft := do
  let li := r.raftLog.lastIndex
  let es := es.enum.map (fun p => { p.2 with Term := r.Term, Index := li + 1 + p.1 })
  let r := { r with raftLog := r.raftLog.append es }
  match prsLookup r.prs r.id with
  | none => .error "appendEntry: no progress for self"
  | some _ =>
      let r := r.updatePr r.id (fun pr => (pr.maybeUpdate r.raftLog.lastIndex).2)
      let p ← r.maybeCommit
      .ok p.2

/-- `r.becomeFollower(term, lead)`. -/
def raft.becomeFollower (r : raft) (term lead : Nat) : Except String raft := do
  let r ← r.reset term
  .ok { r with lead := lead, state := .StateFollower }

/-- `r.becomeCandidate()`: a direct leader → candidate transition panics. -/
def raft.becomeCandidate (r : raft) : Except String raft := do
  if r.state = .StateLeader then .error "invalid transition [leader -> candidate]"
  else
    let r ← r.reset (r.Term + 1)
    .ok { r with Vote := r.id, state := .StateCandidate }

/-- Scan of the uncommitted entries in `becomeLeader`: a second pending
configuration change is a panic; the flag is set when one is found. -/
def scanPendingConf : List Entry → Bool → Except String Bool
  | [], pc => .ok pc
  | e :: es, pc =>
      if e.EType = .EntryConfChange then
        if pc then .error "unexpected double uncommitted config entry"
        else scanPendingConf es true
      else scanPendingConf es pc

/-- `r.becomeLeader()`: a direct follower → leader transition panics; scan
uncommitted entries for configuration changes, then append the no-op entry. -/
def raft.becomeLeader (r : raft) : Except String raft := do
  if r.state = .StateFollower then .error "invalid transition [follower -> leader]"
  else
    let r ← r.reset r.Term
    let r := { r with lead := r.id, state := .StateLeader }
    match r.raftLog.entries (r.raftLog.committed + 1) noLimit with
    | none => .error "unexpected error getting uncommitted entries"
    | some ents => do
        let pc ← scanPendingConf ents r.pendingConf
        let r := { r with pendingConf := pc }
        r.appendEntry [{ Data := [] }]

/-- `r.poll(id, v)`: record the vote only if this node has not voted before,
then count the granted votes. -/
def raft.poll (r : raft) (id : Nat) (v : Bool) : Nat × raft :=
  let votes :=
    if (r.votes.find? (fun p => p.1 == id)).isSome then r.votes
    else r.votes ++ [(id, v)]
  let granted := (votes.filter (fun p => p.2)).length
  (granted, { r with votes := votes })

/-- Loop body of `campaign`: send a `MsgVote` carrying the last log index and
term to each other peer. -/
def raft.sendVoteAll (r : raft) : List Nat → raft
  | [] => r
  | id :: ids =>
      if id = r.id then r.sendVoteAll ids
      else (r.send { MType := .MsgVote, To := id, Index := r.raftLog.lastIndex,
                     LogTerm := r.raftLog.lastTerm }).sendVoteAll ids

/-- `r.campaign()`: become candidate, self-poll, win immediately on a quorum
of one, otherwise solicit votes from every other peer. -/
def raft.campaign (r : raft) : Except String raft := do
  let r ← r.becomeCandidate
  let p := r.poll r.id true
  if p.1 = p.2.quorum then p.2.becomeLeader
  else .ok (p.2.sendVoteAll (p.2.prs.map (fun q => q.1)))

/-- `r.checkQuorumActive()`: count the active nodes (self always, others by
their `RecentActive` flag) and clear every other peer's flag. -/
def raft.checkQuorumActive (r : raft) : Bool × raft :=
  let act := (r.prs.filter (fun p => p.1 == r.id || p.2.RecentActive)).length
  let r1 := { r with prs := r.prs.map (fun p =>
      if p.1 == r.id then p else (p.1, { p.2 with RecentActive := false })) }
  (act ≥ r1.quorum, r1)

/-- `r.sendTimeoutNow(to)`. -/
def raft.sendTimeoutNow (r : raft) (toId : Nat) : raft :=
  r.send { MType := .MsgTimeoutNow, To := toId }

/-- `r.handleAppendEntries(m)`: absorb stale appends below the commit index,
otherwise try `maybeAppend` and acknowledge or reject. -/
def raft.handleAppendEntries (r : raft) (m : Message) : raft :=
  if m.Index < r.raftLog.committed then
    r.send { MType := .MsgAppResp, To := m.From, Index := r.raftLog.committed }
  else
    let p := r.raftLog.maybeAppend m.Index m.LogTerm m.Commit m.Entries
    match p.1 with
    | some mlastIndex =>
        { r with raftLog := p.2 }.send { MType := .MsgAppResp, To := m.From, Index := mlastIndex }
    | none =>
        { r with raftLog := p.2 }.send
          { MType := .MsgAppResp, To := m.From, Index := m.Index, Reject := true,
            RejectHint := r.raftLog.lastIndex }

/-- `r.handleHeartbeat(m)`. -/
def raft.handleHeartbeat (r : raft) (m : Message) : Except String raft := do
  let l ← r.raftLog.commitTo m.Commit
  .ok ({ r with raftLog := l }.send { MType := .MsgHeartbeatResp, To := m.From })

/-- `r.restore(s)`: ignore stale snapshots; fast-forward commit when the log
already matches; otherwise reset the log to the snapshot and rebuild the
progress map from the snapshot's configuration. -/
def raft.restore (r : raft) (s : Snapshot) : Except String (Bool × raft) := do
  if s.Metadata.Index ≤ r.raftLog.committed then .ok (false, r)
  else if r.raftLog.matchTerm s.Metadata.Index s.Metadata.Term then do
    let l ← r.raftLog.commitTo s.Metadata.Index
    .ok (false, { r with raftLog := l })
  else
    let r := { r with raftLog := r.raftLog.restore s, prs := [] }
    let r := s.Metadata.Nodes.foldl (fun r n =>
        let next := r.raftLog.lastIndex + 1
        let mtch := if n = r.id then next - 1 else 0
        r.setProgress n mtch next) r
    .ok (true, r)

/-- `r.handleSnapshot(m)`. -/
def raft.handleSnapshot (r : raft) (m : Message) : Except String raft := do
  let p ← r.restore m.Snapshot
  if p.1 then
    .ok (p.2.send { MType := .MsgAppResp, To := m.From, Index := p.2.raftLog.lastIndex })
  else
    .ok (p.2.send { MType := .MsgAppResp, To := m.From, Index := p.2.raftLog.committed })

/-- `r.addNode(id)`: redundant calls return immediately; otherwise install a
fresh progress entry and clear the pending configuration flag. -/
def raft.addNode (r : raft) (id : Nat) : raft :=
  if (prsLookup r.prs id).isSome then r
  else { r.setProgress id 0 (r.raftLog.lastIndex + 1) with pendingConf := false }

/-- The tail of `removeNode` after the unconditional `delProgress` and
`pendingConf = false` writes: return early when the cluster became empty,
otherwise try to commit under the smaller quorum (broadcasting on success)
and abort a leadership transfer to the removed node. -/
def removeNodeRest (r : raft) (id : Nat) : Except String raft :=
  if r.prs.isEmpty then .ok r
  else do
    let p ← r.maybeCommit
    let r ← if p.1 then p.2.bcastAppend else .ok p.2
    if r.state = .StateLeader ∧ r.leadTransferee = id then
      .ok r.abortLeaderTransfer
    else .ok r

/-- `r.removeNode(id)`: delete the progress entry, clear the pending
configuration flag, then run the rest of the handler (`removeNodeRest`). -/
def raft.removeNode (r : raft) (id : Nat) : Except String raft :=
  removeNodeRest { r.delProgress id with pendingConf := false } id

/-- The conf-change rewrite loop of the leader's `MsgProp` handler: walking
the proposed entries in order, a conf-change entry found while `pendingConf`
is already set is blanked to a normal entry, and each conf-change entry sets
`pendingConf`. -/
def rewriteConfEntries : List Entry → Bool → List Entry × Bool
  | [], pc => ([], pc)
  | e :: es, pc =>
      if e.EType = .EntryConfChange then
        let e2 := if pc then ({ EType := .EntryNormal } : Entry) else e
        let p := rewriteConfEntries es true
        (e2 :: p.1, p.2)
      else
        let p := rewriteConfEntries es pc
        (e :: p.1, p.2)

/-- `stepLeader(r, m)`: the leader's handler for every message kind; the
first group needs no per-peer progress, the rest is dropped when the sender
has no progress entry. -/
def stepLeader (r : raft) (m : Message) : Except String raft :=
  match m.MType with
  | .MsgBeat => r.bcastHeartbeat
  | .MsgCheckQuorum =>
      let p := r.checkQuorumActive
      if p.1 then .ok p.2
      else p.2.becomeFollower p.2.Term 0
  | .MsgProp =>
      if m.Entries.length = 0 then .error "stepped empty MsgProp"
      else if (prsLookup r.prs r.id).isNone then .ok r
      else if r.leadTransferee ≠ 0 then .ok r
      else
        let p := rewriteConfEntries m.Entries r.pendingConf
        do
          let r ← { r with pendingConf := p.2 }.appendEntry p.1
          r.bcastAppend
  | .MsgVote =>
      .ok (r.send { MType := .MsgVoteResp, To := m.From, Reject := true })
  | .MsgReadIndex =>
      let ri := if r.checkQuorum then r.raftLog.committed else 0
      .ok (r.send { MType := .MsgReadIndexResp, To := m.From, Index := ri, Entries := m.Entries })
  | _ =>
    match prsLookup r.prs m.From with
    | none => .ok r
    | some pr =>
      match m.MType with
      | .MsgAppResp =>
          let pr := { pr with RecentActive := true }
          let r := r.updatePr m.From (fun _ => pr)
          if m.Reject then
            let d := pr.maybeDecrTo m.Index m.RejectHint
            if d.1 then
              let pr2 := if d.2.State = .ProgressStateReplicate then d.2.becomeProbe else d.2
              (r.updatePr m.From (fun _ => pr2)).sendAppend m.From
            else .ok (r.updatePr m.From (fun _ => d.2))
          else
            let oldPaused := pr.isPaused
            let u := pr.maybeUpdate m.Index
            if u.1 then
              let pr2 :=
                if u.2.State = .ProgressStateProbe then u.2.becomeReplicate
                else if u.2.State = .ProgressStateSnapshot ∧ u.2.needSnapshotAbort then
                  u.2.becomeProbe
                else if u.2.State = .ProgressStateReplicate then
                  { u.2 with ins := u.2.ins.freeTo m.Index }
                else u.2
              let r := r.updatePr m.From (fun _ => pr2)
              do
                let p ← r.maybeCommit
                let r ← if p.1 then p.2.bcastAppend
                        else if oldPaused then p.2.sendAppend m.From
                        else .ok p.2
                if m.From = r.leadTransferee ∧ pr2.Match = r.raftLog.lastIndex then
                  .ok (r.sendTimeoutNow m.From)
                else .ok r
            else .ok (r.updatePr m.From (fun _ => u.2))
      | .MsgHeartbeatResp =>
          let pr := { pr with RecentActive := true }
          let pr := if pr.State = .ProgressStateReplicate ∧ pr.ins.full then
                      { pr with ins := pr.ins.freeFirstOne }
                    else pr
          let r := r.updatePr m.From (fun _ => pr)
          if pr.Match < r.raftLog.lastIndex then r.sendAppend m.From else .ok r
      | .MsgSnapStatus =>
          if pr.State ≠ .ProgressStateSnapshot then .ok r
          else
            let pr2 := if ¬ m.Reject then pr.becomeProbe else pr.snapshotFailure.becomeProbe
            .ok (r.updatePr m.From (fun _ => pr2.pause))
      | .MsgUnreachable =>
          if pr.State = .ProgressStateReplicate then
            .ok (r.updatePr m.From (fun _ => pr.becomeProbe))
          else .ok r
      | .MsgTransferLeader =>
          let leadTransferee := m.From
          let lastLeadTransferee := r.leadTransferee
          if lastLeadTransferee ≠ 0 ∧ lastLeadTransferee = leadTransferee then .ok r
          else
            let r := if lastLeadTransferee ≠ 0 then r.abortLeaderTransfer else r
            if leadTransferee = r.id then .ok r
            else
              let r := { r with electionElapsed := 0, leadTransferee := leadTransferee }
              if pr.Match = r.raftLog.lastIndex then .ok (r.sendTimeoutNow leadTransferee)
              else r.sendAppend leadTransferee
      | _ => .ok r

/-- `stepCandidate(r, m)`. -/
def stepCandidate (r : raft) (m : Message) : Except String raft :=
  match m.MType with
  | .MsgProp => .ok r
  | .MsgApp => do
      let r ← r.becomeFollower r.Term m.From
      .ok (r.handleAppendEntries m)
  | .MsgHeartbeat => do
      let r ← r.becomeFollower r.Term m.From
      r.handleHeartbeat m
  | .MsgSnap => do
      let r ← r.becomeFollower m.Term m.From
      r.handleSnapshot m
  | .MsgVote =>
      .ok (r.send { MType := .MsgVoteResp, To := m.From, Reject := true })
  | .MsgVoteResp =>
      let p := r.poll m.From (! m.Reject)
      let gr := p.1
      let r := p.2
      if r.quorum = gr then do
        let r ← r.becomeLeader
        r.bcastAppend
      else if r.quorum = r.votes.length - gr then r.becomeFollower r.Term 0
      else .ok r
  | _ => .ok r

/-- `stepFollower(r, m)`. -/
def stepFollower (r : raft) (m : Message) : Except String raft :=
  match m.MType with
  | .MsgProp =>
      if r.lead = 0 then .ok r
      else .ok (r.send { m with To := r.lead })
  | .MsgApp =>
      let r := { r with electionElapsed := 0, lead := m.From }
      .ok (r.handleAppendEntries m)
  | .MsgHeartbeat =>
      let r := { r with electionElapsed := 0, lead := m.From }
      r.handleHeartbeat m
  | .MsgSnap =>
      let r := { r with electionElapsed := 0 }
      r.handleSnapshot m
  | .MsgVote =>
      if (r.Vote = 0 ∨ r.Vote = m.From) ∧ r.raftLog.isUpToDate m.Index m.LogTerm then
        let r := { r with electionElapsed := 0, Vote := m.From }
        .ok (r.send { MType := .MsgVoteResp, To := m.From })
      else
        .ok (r.send { MType := .MsgVoteResp, To := m.From, Reject := true })
  | .MsgTimeoutNow => r.campaign
  | .MsgReadIndex =>
      if r.lead = 0 then .ok r
      else .ok (r.send { m with To := r.lead })
  | .MsgReadIndexResp =>
      if m.Entries.length ≠ 1 then .ok r
      else .ok { r with readState :=
        { Index := m.Index, RequestCtx := (m.Entries.headD {}).Data } }
  | _ => .ok r

/-- The `r.step` function pointer: it is installed by the `become*`
transitions and always matches the current role. -/
def raft.stepByRole (r : raft) (m : Message) : Except String raft :=
  match r.state with
  | .StateLeader => stepLeader r m
  | .StateCandidate => stepCandidate r m
  | .StateFollower => stepFollower r m

/-- `r.Step(m)`: handle local `MsgHup`, then term normalization (drop a
higher-term vote inside the check-quorum lease window; answer stale leaders
under check-quorum), then dispatch to the role handler. -/
def raft.Step (r : raft) (m : Message) : Except String raft :=
  if m.MType = .MsgHup then
    if r.state ≠ .StateLeader then r.campaign else .ok r
  else if m.Term = 0 then
    r.stepByRole m
  else if m.Term > r.Term then
    if m.MType = .MsgVote ∧ r.checkQuorum ∧ r.state ≠ .StateCandidate ∧
        r.electionElapsed < r.electionTimeout then
      .ok r
    else do
      let lead := if m.MType = .MsgVote then 0 else m.From
      let r ← r.becomeFollower m.Term lead
      r.stepByRole m
  else if m.Term < r.Term then
    if r.checkQuorum ∧ (m.MType = .MsgHeartbeat ∨ m.MType = .MsgApp) then
      .ok (r.send { MType := .MsgAppResp, To := m.From })
    else .ok r
  else
    r.stepByRole m

/-- `r.pastElectionTimeout()`. -/
def raft.pastElectionTimeout (r : raft) : Bool :=
  r.electionElapsed ≥ r.randomizedElectionTimeout

/-- `r.tickElection()`. -/
def raft.tickElection (r : raft) : Except String raft :=
  let r := { r with electionElapsed := r.electionElapsed + 1 }
  if r.promotable && r.pastElectionTimeout then
    raft.Step { r with electionElapsed := 0 } { MType := .MsgHup, From := r.id }
  else .ok r

/-- `r.tickHeartbeat()`. -/
def raft.tickHeartbeat (r : raft) : Except String raft := do
  let r := { r with heartbeatElapsed := r.heartbeatElapsed + 1,
                    electionElapsed := r.electionElapsed + 1 }
  let r ←
    if r.electionElapsed ≥ r.electionTimeout then do
      let r := { r with electionElapsed := 0 }
      let r ← if r.checkQuorum then r.Step { MType := .MsgCheckQuorum, From := r.id } else .ok r
      if r.state = .StateLeader ∧ r.leadTransferee ≠ 0 then .ok r.abortLeaderTransfer
      else .ok r
    else .ok r
  if r.state ≠ .StateLeader then .ok r
  else if r.heartbeatElapsed ≥ r.heartbeatTimeout then
    raft.Step { r with heartbeatElapsed := 0 } { MType := .MsgBeat, From := r.id }
  else .ok r

/-- The number of nodes the leader counts as active in `checkQuorumActive`:
its own progress entry always, every other entry by its `RecentActive` flag. -/
def raft.activeCount (r : raft) : Nat :=
  (r.prs.filter (fun p => p.1 == r.id || p.2.RecentActive)).length

/-- A second `raftLog.maybeCommit` with the same arguments never reports a
change: the first call either already advanced `committed` to `maxIndex` or
left the log alone with the guard still false. -/
theorem raftLog_maybeCommit_second (l : raftLog) (mci t : Nat) :
    ((l.maybeCommit mci t).2).maybeCommit mci t = (false, (l.maybeCommit mci t).2) := by
  unfold raftLog.maybeCommit
  split
  · next hcond =>
      have : ¬ (mci < mci ∧ raftLog.term { l with committed := mci } mci = some t) := by
        intro hc
        exact Nat.lt_irrefl mci hc.1
      simp [this]
  · next hcond => simp [hcond]

/-- C7 counterexample: this configuration satisfies the three constraints the
claim lists (nonzero id, positive heartbeat tick, larger election tick), yet
validation fails, because `MaxInflightMsgs` is nonpositive. -/
def cBad : Config :=
  { ID := 1, ElectionTick := 10, HeartbeatTick := 1, StoragePresent := true,
    MaxInflightMsgs := 0 }

/-- C7: the claim as stated is false: a configuration with nonzero id,
positive heartbeat tick and a larger election tick can still be rejected. -/
theorem c7_validate_counterexample :
    (cBad.ID ≠ 0 ∧ 0 < cBad.HeartbeatTick ∧ cBad.HeartbeatTick < cBad.ElectionTick) ∧
      cBad.validate ≠ none := by
  decide

/-- C7 (amended): validation succeeds exactly when the id is nonzero, the
heartbeat tick is positive, the election tick exceeds it, the storage is
present and `MaxInflightMsgs` is positive; any violation yields an error and
construction is refused. -/
theorem c7_validate_characterization (c : Config) :
    c.validate = none ↔
      (c.ID ≠ 0 ∧ 0 < c.HeartbeatTick ∧ c.HeartbeatTick < c.ElectionTick ∧
        c.StoragePresent = true ∧ 0 < c.MaxInflightMsgs) := by
  unfold Config.validate
  split_ifs with h1 h2 h3 h4 h5 <;> simp_all

/-- C10: `poll` records only the first vote response per node: when `id`
already appears in the votes map, a later `poll id v` leaves the map (and the
whole node state) unchanged and returns the current granted count. -/
theorem c10_poll_duplicate_vote (r : raft) (id : Nat) (v : Bool)
    (h : (r.votes.find? (fun p => p.1 == id)).isSome = true) :
    r.poll id v = ((r.votes.filter (fun p => p.2)).length, r) := by
  unfold raft.poll
  rw [if_pos h]

/-- C10 witness: a vote map that already contains node 2 with one granted
vote; re-polling node 2 with a rejection changes nothing. -/
def rDupVote : raft :=
  { id := 1, Term := 2, state := .StateCandidate, votes := [(1, true), (2, true)] }

theorem c10_poll_duplicate_vote_witness :
    rDupVote.poll 2 false = (2, rDupVote) :=
  c10_poll_duplicate_vote rDupVote 2 false rfl

/-- C9: an incoming append whose previous index lies strictly below the
committed index is answered with `AppResp{Index = committed}` and produces no
other state change at all. -/
theorem c9_handleAppendEntries_stale (r : raft) (m : Message)
    (h : m.Index < r.raftLog.committed) :
    r.handleAppendEntries m =
      { r with msgs := r.msgs ++
          [{ MType := .MsgAppResp, To := m.From, From := r.id, Term := r.Term,
             Index := r.raftLog.committed }] } := by
  unfold raft.handleAppendEntries raft.send
  rw [if_pos h]
  simp

/-- C9 witness: a follower with commit index 2 receiving a stale append at
previous index 1 replies with its commit index and keeps its state. -/
def rStale : raft :=
  { id := 2, Term := 3, state := .StateFollower, lead := 1,
    raftLog := { ents := [{ Term := 1, Index := 1 }, { Term := 2, Index := 2 },
                          { Term := 3, Index := 3 }], committed := 2 } }

theorem c9_handleAppendEntries_stale_witness :
    rStale.handleAppendEntries
        { MType := .MsgApp, From := 1, Term := 3, Index := 1, LogTerm := 1, Commit := 2 } =
      { rStale with msgs :=
          [{ MType := .MsgAppResp, To := 1, From := 2, Term := 3, Index := 2 }] } :=
  c9_handleAppendEntries_stale rStale
    { MType := .MsgApp, From := 1, Term := 3, Index := 1, LogTerm := 1, Commit := 2 }
    (by decide)

/-- C8: the heartbeat the leader sends to `to` carries
`Commit = min(match[to], committed)`, which in particular never exceeds the
peer's matched index. -/
theorem c8_sendHeartbeat_commit (r : raft) (toId : Nat) (pr : Progress)
    (h : prsLookup r.prs toId = some pr) :
    r.sendHeartbeat toId =
      .ok { r with msgs := r.msgs ++
          [{ MType := .MsgHeartbeat, To := toId, From := r.id, Term := r.Term,
             Commit := min pr.Match r.raftLog.committed }] } ∧
      min pr.Match r.raftLog.committed ≤ pr.Match := by
  refine ⟨?_, Nat.min_le_left _ _⟩
  unfold raft.sendHeartbeat raft.send
  rw [h]
  simp

/-- C8 witness: a leader with commit index 3 heartbeats a peer matched only
up to 1: the heartbeat carries commit 1. -/
def rHb : raft :=
  { id := 1, Term := 5, state := .StateLeader, lead := 1,
    raftLog := { ents := [{ Term := 5, Index := 1 }, { Term := 5, Index := 2 },
                          { Term := 5, Index := 3 }], committed := 3 },
    prs := [(1, { Match := 3, Next := 4 }), (2, { Match := 1, Next := 2 })] }

theorem c8_sendHeartbeat_commit_witness :
    rHb.sendHeartbeat 2 =
      .ok { rHb with msgs :=
          [{ MType := .MsgHeartbeat, To := 2, From := 1, Term := 5, Commit := 1 }] } ∧
      (1 : Nat) ≤ 1 :=
  c8_sendHeartbeat_commit rHb 2 { Match := 1, Next := 2 } rfl

/-- C2: with `checkQuorum` on, a node that is not a candidate and whose
election timer has not yet reached the election timeout drops a higher-term
`MsgVote`: `Step` returns `nil` with the node state (term, vote, role,
leader, outbound messages, everything) exactly unchanged. -/
theorem c2_step_drops_lease_vote (r : raft) (m : Message)
    (hcq : r.checkQuorum = true) (hst : r.state ≠ .StateCandidate)
    (hel : r.electionElapsed < r.electionTimeout)
    (hty : m.MType = .MsgVote) (hterm : r.Term < m.Term) :
    r.Step m = .ok r := by
  have h0 : ¬ (m.Term = 0) := by omega
  unfold raft.Step
  rw [hty]
  simp [h0, hterm, hcq, hst, hel]

/-- C2 witness: a follower at term 1 inside its lease window ignores a
term-5 vote request. -/
def rLease : raft :=
  { id := 1, Term := 1, state := .StateFollower, lead := 3, checkQuorum := true,
    electionElapsed := 3, electionTimeout := 10,
    prs := [(1, { Next := 1 }), (2, { Next := 1 }), (3, { Next := 1 })] }

theorem c2_step_drops_lease_vote_witness :
    rLease.Step { MType := .MsgVote, From := 2, Term := 5 } = .ok rLease :=
  c2_step_drops_lease_vote rLease { MType := .MsgVote, From := 2, Term := 5 }
    rfl (by decide) (by decide) rfl (by decide)

/-- C1 failing input: a leader at term 2 with commit index 1 whose quorum
match index is 2 and whose entry 2 carries the current term, so the commit
index must advance to 2. -/
def rC1 : raft :=
  { id := 1, Term := 2, state := .StateLeader, lead := 1,
    raftLog := { ents := [{ Term := 1, Index := 1 }, { Term := 2, Index := 2 }],
                 committed := 1 },
    maxInflight := 8,
    prs := [(1, { Match := 2, Next := 3, ins := newInflights 8 }),
            (2, { Match := 2, Next := 3, ins := newInflights 8 }),
            (3, { Match := 0, Next := 3, ins := newInflights 8 })] }

/-- C1: in the raft.go version the claim cites, `maybeCommit` advances the
commit index (1 to 2 here) yet returns `false`, because the function calls
`raftLog.maybeCommit` twice and returns the second result; the leader
therefore skips the broadcast that the claim (and the function's own doc
comment) promises.  The single-call version of the other raft.go file
returns `true` on the same state, as the claim says. -/
theorem c1_maybeCommit_dinv_bug :
    rC1.raftLog.committed = 1 ∧
    rC1.maybeCommitDinv =
      .ok (false, { rC1 with raftLog := { rC1.raftLog with committed := 2 } }) ∧
    rC1.maybeCommit =
      .ok (true, { rC1 with raftLog := { rC1.raftLog with committed := 2 } }) := by
  refine ⟨rfl, rfl, rfl⟩

/-- The explicit state produced by a successful `reset(term)`. -/
def resetResult (r : raft) (t : Nat) : raft :=
  let r0 := if r.Term ≠ t then { r with Term := t, Vote := 0 } else r
  let li := r.raftLog.lastIndex
  { r0 with
    lead := 0, electionElapsed := 0, heartbeatElapsed := 0,
    randomizedElectionTimeout := r.electionTimeout + (r.rng.headD 0) % r.electionTimeout,
    rng := r.rng.tail, leadTransferee := 0, votes := [],
    prs := r.prs.map (fun p : Nat × Progress =>
      (p.1, { Next := li + 1, Match := if p.1 = r.id then li else 0,
              ins := newInflights r.maxInflight : Progress })),
    pendingConf := false }

/-- `reset` succeeds exactly when the election timeout is positive, and then
produces `resetResult`. -/
theorem reset_eq (r : raft) (t : Nat) (h : r.electionTimeout ≠ 0) :
    r.reset t = .ok (resetResult r t) := by
  unfold raft.reset raft.resetRandomizedElectionTimeout raft.abortLeaderTransfer resetResult
  by_cases hT : r.Term ≠ t <;> simp [hT, h, bind, Except.bind]

/-- A successful `reset` is a `resetResult`. -/
theorem reset_shape (r : raft) (t : Nat) (r1 : raft) (h : r.reset t = .ok r1) :
    r1 = resetResult r t ∧ r.electionTimeout ≠ 0 := by
  have het : r.electionTimeout ≠ 0 := by
    intro h0
    unfold raft.reset raft.resetRandomizedElectionTimeout at h
    by_cases hT : r.Term ≠ t <;> simp [hT, h0, bind, Except.bind] at h
  refine ⟨?_, het⟩
  rw [reset_eq r t het] at h
  cases h
  rfl

/-- Field values of `resetResult` in one statement. -/
theorem resetResult_fields (r : raft) (t : Nat) :
    (resetResult r t).id = r.id ∧ (resetResult r t).Term = t ∧
    (resetResult r t).Vote = (if r.Term ≠ t then 0 else r.Vote) ∧
    (resetResult r t).msgs = r.msgs ∧ (resetResult r t).state = r.state ∧
    (resetResult r t).raftLog = r.raftLog ∧
    (resetResult r t).electionTimeout = r.electionTimeout ∧
    (resetResult r t).maxInflight = r.maxInflight ∧
    (resetResult r t).votes = [] ∧ (resetResult r t).lead = 0 ∧
    (resetResult r t).checkQuorum = r.checkQuorum ∧
    (resetResult r t).prs.length = r.prs.length ∧
    (resetResult r t).randomizedElectionTimeout =
      r.electionTimeout + (r.rng.headD 0) % r.electionTimeout := by
  unfold resetResult
  by_cases hT : r.Term ≠ t <;> simp [hT]
  omega

/-- `becomeFollower` in explicit form. -/
theorem becomeFollower_eq (r : raft) (t lead : Nat) (h : r.electionTimeout ≠ 0) :
    r.becomeFollower t lead =
      .ok { resetResult r t with lead := lead, state := .StateFollower } := by
  unfold raft.becomeFollower
  rw [reset_eq r t h]
  simp [bind, Except.bind]

/-- `becomeCandidate` in explicit form. -/
theorem becomeCandidate_eq (r : raft) (h : r.electionTimeout ≠ 0)
    (hs : r.state ≠ .StateLeader) :
    r.becomeCandidate =
      .ok { resetResult r (r.Term + 1) with Vote := r.id, state := .StateCandidate } := by
  unfold raft.becomeCandidate
  rw [if_neg hs, reset_eq r (r.Term + 1) h]
  simp [bind, Except.bind, (resetResult_fields r (r.Term + 1)).1]

/-- A successful `maybeCommit` only rewrites the log (commit index). -/
theorem maybeCommit_shape (r : raft) (p : Bool × raft) (h : r.maybeCommit = .ok p) :
    ∃ l, p.2 = { r with raftLog := l } := by
  unfold raft.maybeCommit at h
  cases hc : r.commitCandidate with
  | none => rw [hc] at h; simp at h
  | some mci =>
      rw [hc] at h
      injection h with h1
      exact ⟨(r.raftLog.maybeCommit mci r.Term).2, by rw [← h1]⟩

/-- A successful `appendEntry` only rewrites the log and the progress map. -/
theorem appendEntry_shape (r : raft) (es : List Entry) (r1 : raft)
    (h : r.appendEntry es = .ok r1) :
    ∃ l prs2, r1 = { r with raftLog := l, prs := prs2 } := by
  unfold raft.appendEntry at h
  dsimp only at h
  split at h
  · simp at h
  · next pr hpr =>
      simp only [bind, Except.bind] at h
      generalize hrB : raft.updatePr _ _ _ = rB at h
      cases hmc : rB.maybeCommit with
      | error e => rw [hmc] at h; simp at h
      | ok p =>
          rw [hmc] at h
          simp only [Except.ok.injEq] at h
          obtain ⟨l, hl⟩ := maybeCommit_shape rB p hmc
          refine ⟨l, rB.prs, ?_⟩
          rw [← h, hl, ← hrB]
          rfl

/-- A successful `becomeLeader` goes through `reset` at the same term and
then only touches `lead`, `state`, `pendingConf`, the log and the progress
map: term, vote, messages and timeouts carry over from `resetResult`. -/
theorem becomeLeader_shape (r : raft) (r1 : raft) (h : r.becomeLeader = .ok r1) :
    r1.Term = r.Term ∧ r1.Vote = r.Vote ∧ r1.state = .StateLeader ∧
    r1.msgs = r.msgs ∧ r1.electionTimeout = r.electionTimeout ∧
    r1.randomizedElectionTimeout =
      r.electionTimeout + (r.rng.headD 0) % r.electionTimeout := by
  unfold raft.becomeLeader at h
  split at h
  · simp at h
  · simp only [bind, Except.bind] at h
    cases hrs : r.reset r.Term with
    | error e => rw [hrs] at h; simp at h
    | ok r2 =>
        rw [hrs] at h
        dsimp only at h
        obtain ⟨hr2, het⟩ := reset_shape r r.Term r2 hrs
        split at h
        · simp at h
        · next ents hents =>
            cases hsc : scanPendingConf ents
                ({ r2 with lead := r2.id, state := StateType.StateLeader }).pendingConf with
            | error e =>
                rw [show scanPendingConf ents r2.pendingConf = .error e from hsc] at h
                simp at h
            | ok pc =>
                rw [show scanPendingConf ents r2.pendingConf = .ok pc from hsc] at h
                simp only [Except.bind] at h
                obtain ⟨l, prs2, hshape⟩ := appendEntry_shape _ _ r1 h
                obtain ⟨hid, hTerm, hVote, hmsgs, hstate, hlog, het2, hmax,
                        hvotes, hlead, hcq, hlen, hrand⟩ := resetResult_fields r r.Term
                subst hr2
                subst hshape
                refine ⟨by simpa using hTerm, ?_, rfl, by simpa using hmsgs,
                        by simpa using het2, by simpa using hrand⟩
                simp only at hVote ⊢
                rw [hVote]
                simp

/-- C4: whenever the election timeout is positive, every role transition
(each runs `reset`) leaves `randomizedElectionTimeout` inside the closed
interval `[electionTimeout, 2*electionTimeout - 1]`, for every value the
node's random stream can produce. -/
theorem c4_randomized_timeout_range (r : raft) (h : 0 < r.electionTimeout) :
    (∀ t lead r1, r.becomeFollower t lead = .ok r1 →
        r.electionTimeout ≤ r1.randomizedElectionTimeout ∧
        r1.randomizedElectionTimeout ≤ 2 * r.electionTimeout - 1) ∧
    (∀ r1, r.becomeCandidate = .ok r1 →
        r.electionTimeout ≤ r1.randomizedElectionTimeout ∧
        r1.randomizedElectionTimeout ≤ 2 * r.electionTimeout - 1) ∧
    (∀ r1, r.becomeLeader = .ok r1 →
        r.electionTimeout ≤ r1.randomizedElectionTimeout ∧
        r1.randomizedElectionTimeout ≤ 2 * r.electionTimeout - 1) := by
  have hmod : ∀ x : Nat, r.electionTimeout ≤ r.electionTimeout + x % r.electionTimeout ∧
      r.electionTimeout + x % r.electionTimeout ≤ 2 * r.electionTimeout - 1 := by
    intro x
    have := Nat.mod_lt x h
    omega
  have het : r.electionTimeout ≠ 0 := by omega
  refine ⟨?_, ?_, ?_⟩
  · intro t lead r1 h1
    rw [becomeFollower_eq r t lead het] at h1
    injection h1 with h1
    rw [← h1]
    show r.electionTimeout ≤ (resetResult r t).randomizedElectionTimeout ∧
        (resetResult r t).randomizedElectionTimeout ≤ 2 * r.electionTimeout - 1
    rw [(resetResult_fields r t).2.2.2.2.2.2.2.2.2.2.2.2]
    exact hmod _
  · intro r1 h1
    rw [show r.becomeCandidate = r.becomeCandidate from rfl] at h1
    unfold raft.becomeCandidate at h1
    split at h1
    · simp at h1
    · simp only [bind, Except.bind] at h1
      rw [reset_eq r (r.Term + 1) het] at h1
      dsimp only at h1
      injection h1 with h1
      rw [← h1]
      show r.electionTimeout ≤ (resetResult r (r.Term + 1)).randomizedElectionTimeout ∧
          (resetResult r (r.Term + 1)).randomizedElectionTimeout ≤ 2 * r.electionTimeout - 1
      rw [(resetResult_fields r (r.Term + 1)).2.2.2.2.2.2.2.2.2.2.2.2]
      exact hmod _
  · intro r1 h1
    obtain ⟨-, -, -, -, -, hrand⟩ := becomeLeader_shape r r1 h1
    rw [hrand]
    exact hmod _

/-- C4 witness: a three-node follower with election timeout 10 and an
arbitrary random value 1234 in its stream. -/
def rTick : raft :=
  { id := 1, Term := 3, state := .StateFollower, electionTimeout := 10,
    heartbeatTimeout := 1, rng := [1234],
    prs := [(1, { Next := 1 }), (2, { Next := 1 }), (3, { Next := 1 })] }

theorem c4_randomized_timeout_range_witness :
    10 ≤ ((rTick.becomeFollower 3 0).toOption.getD rTick).randomizedElectionTimeout ∧
    ((rTick.becomeFollower 3 0).toOption.getD rTick).randomizedElectionTimeout ≤ 19 := by
  have hc := (c4_randomized_timeout_range rTick (by decide)).1 3 0
  have hok : rTick.becomeFollower 3 0 =
      .ok { resetResult rTick 3 with lead := 0, state := .StateFollower } :=
    becomeFollower_eq rTick 3 0 (by decide)
  have := hc _ hok
  rw [hok]
  exact this

/-- C3: a leader handling a local `MsgCheckQuorum` steps down to follower at
its same term with no leader recorded when fewer than a quorum of nodes are
active (itself always counted, other peers by their `recent_active` flag);
whether or not it steps down, the `recent_active` flag of every other peer is
reset to false. -/
theorem c3_checkQuorum_stepdown (r : raft) (m : Message)
    (hm : m.MType = .MsgCheckQuorum) (het : r.electionTimeout ≠ 0) :
    ∃ r1, stepLeader r m = .ok r1 ∧
      (∀ p ∈ r1.prs, p.1 ≠ r.id → p.2.RecentActive = false) ∧
      (r.activeCount < r.quorum →
        r1.state = .StateFollower ∧ r1.Term = r.Term ∧ r1.lead = 0) ∧
      (r.quorum ≤ r.activeCount →
        r1.state = r.state ∧ r1.Term = r.Term ∧ r1.lead = r.lead ∧
        r1.raftLog = r.raftLog ∧ r1.msgs = r.msgs) := by
  have hstep : stepLeader r m =
      (if (r.checkQuorumActive).1 = true then .ok (r.checkQuorumActive).2
       else (r.checkQuorumActive).2.becomeFollower (r.checkQuorumActive).2.Term 0) := by
    unfold stepLeader
    rw [hm]
  have hcq : r.checkQuorumActive =
      (decide (r.activeCount ≥ ({ r with prs := r.prs.map (fun p =>
          if p.1 == r.id then p else (p.1, { p.2 with RecentActive := false })) } : raft).quorum),
       { r with prs := r.prs.map (fun p =>
          if p.1 == r.id then p else (p.1, { p.2 with RecentActive := false })) }) := rfl
  set rc : raft := { r with prs := r.prs.map (fun p =>
      if p.1 == r.id then p else (p.1, { p.2 with RecentActive := false })) } with hrc
  have hq : rc.quorum = r.quorum := by
    simp [raft.quorum, hrc]
  have hflags : ∀ p ∈ rc.prs, p.1 ≠ r.id → p.2.RecentActive = false := by
    intro p hp hne
    rw [hrc] at hp
    simp only [List.mem_map] at hp
    obtain ⟨q, hq0, hq1⟩ := hp
    by_cases hid : q.1 == r.id
    · rw [if_pos hid] at hq1
      have : q.1 = r.id := by simpa using hid
      exact absurd (hq1 ▸ this) hne
    · rw [if_neg (by simpa using hid)] at hq1
      rw [← hq1]
  by_cases hA : r.quorum ≤ r.activeCount
  · refine ⟨rc, ?_, hflags, ?_, ?_⟩
    · rw [hstep, hcq]
      simp [hq, hA]
    · intro hlt
      omega
    · intro _
      exact ⟨rfl, rfl, rfl, rfl, rfl⟩
  · have hbf : rc.becomeFollower rc.Term 0 =
        .ok { resetResult rc rc.Term with lead := 0, state := .StateFollower } :=
      becomeFollower_eq rc rc.Term 0 (by simpa [hrc] using het)
    refine ⟨{ resetResult rc rc.Term with lead := 0, state := .StateFollower }, ?_, ?_, ?_, ?_⟩
    · rw [hstep, hcq]
      have : ¬ (r.activeCount ≥ rc.quorum) := by omega
      rw [if_neg (by simpa using this)]
      exact hbf
    · intro p hp hne
      have hprs : (resetResult rc rc.Term).prs = rc.prs.map (fun p : Nat × Progress =>
          (p.1, { Next := rc.raftLog.lastIndex + 1,
                  Match := if p.1 = rc.id then rc.raftLog.lastIndex else 0,
                  ins := newInflights rc.maxInflight : Progress })) := by
        unfold resetResult
        by_cases hT : rc.Term ≠ rc.Term <;> simp [hT]
      simp only at hp
      rw [hprs] at hp
      simp only [List.mem_map] at hp
      obtain ⟨q, hq0, hq1⟩ := hp
      rw [← hq1]
    · intro _
      refine ⟨rfl, ?_, rfl⟩
      simpa using (resetResult_fields rc rc.Term).2.1
    · intro hge
      omega

/-- C3 witness: a three-node leader with no recently-active peer steps down
to follower at its term with no leader, and both peers' flags are cleared. -/
def rQ : raft :=
  { id := 1, Term := 4, state := .StateLeader, lead := 1, electionTimeout := 10,
    rng := [2],
    prs := [(1, { Next := 1 }), (2, { Next := 1 }), (3, { Next := 1 })] }

theorem c3_checkQuorum_stepdown_witness :
    ((stepLeader rQ { MType := .MsgCheckQuorum, From := 1 }).toOption.getD rQ).state =
        .StateFollower ∧
    ((stepLeader rQ { MType := .MsgCheckQuorum, From := 1 }).toOption.getD rQ).Term = 4 ∧
    ((stepLeader rQ { MType := .MsgCheckQuorum, From := 1 }).toOption.getD rQ).lead = 0 := by
  obtain ⟨r1, hstep, hflags, hdown, hup⟩ :=
    c3_checkQuorum_stepdown rQ { MType := .MsgCheckQuorum, From := 1 } rfl (by decide)
  have hd := hdown (by decide)
  rw [hstep]
  exact ⟨hd.1, hd.2.1, hd.2.2⟩

/-- The vote request `campaign` sends to each other peer. -/
def voteMsg (r : raft) (id : Nat) : Message :=
  { MType := .MsgVote, To := id, From := r.id, Term := r.Term,
    Index := r.raftLog.lastIndex, LogTerm := r.raftLog.lastTerm }

/-- `send` keeps the node id. -/
theorem send_id (r : raft) (m : Message) : (r.send m).id = r.id := rfl

/-- `voteMsg` ignores the outbound buffer, so sending first does not change it. -/
theorem voteMsg_send (r : raft) (m : Message) : voteMsg (r.send m) = voteMsg r := by
  funext j
  simp [voteMsg, raft.send]

/-- `sendVoteAll` appends exactly one `voteMsg` per non-self id, in order,
and changes nothing else. -/
theorem sendVoteAll_eq (ids : List Nat) : ∀ r : raft,
    r.sendVoteAll ids =
      { r with msgs := r.msgs ++ (ids.filter (fun i => i ≠ r.id)).map (voteMsg r) } := by
  induction ids with
  | nil => intro r; simp [raft.sendVoteAll]
  | cons id ids ih =>
      intro r
      unfold raft.sendVoteAll
      by_cases hid : id = r.id
      · rw [if_pos hid, ih]
        have : (List.filter (fun i => decide (i ≠ r.id)) (id :: ids)) =
            List.filter (fun i => decide (i ≠ r.id)) ids := by
          simp [List.filter, hid]
        simp only [this]
      · rw [if_neg hid, ih, voteMsg_send]
        have hfil : (List.filter (fun i => decide (i ≠ r.id)) (id :: ids)) =
            id :: List.filter (fun i => decide (i ≠ r.id)) ids := by
          simp [List.filter, hid]
        simp only [send_id]
        simp [raft.send, voteMsg, hid, List.append_assoc, List.filter_cons]

/-- `poll` on an empty tally records the vote and counts it. -/
theorem poll_fresh (r : raft) (id : Nat) (v : Bool) (hv : r.votes = []) :
    r.poll id v = ((if v then 1 else 0), { r with votes := [(id, v)] }) := by
  unfold raft.poll
  rw [hv]
  cases v <;> simp

/-- C5: `campaign` on a non-leader makes the node a candidate at exactly
`term + 1` with `Vote = id`; it immediately counts its own vote, and if the
quorum size is one it becomes leader at once without sending anything, while
otherwise it stays candidate and sends every other configured peer a
`MsgVote` carrying its last log index and last log term. -/
theorem c5_campaign (r r' : raft) (hL : r.state ≠ .StateLeader)
    (h : r.campaign = .ok r') :
    r'.Term = r.Term + 1 ∧ r'.Vote = r.id ∧
    (r.quorum = 1 → r'.state = .StateLeader ∧ r'.msgs = r.msgs) ∧
    (r.quorum ≠ 1 → r'.state = .StateCandidate ∧
        r'.votes = [(r.id, true)] ∧
        r'.msgs = r.msgs ++ ((r.prs.map (fun p => p.1)).filter (fun i => i ≠ r.id)).map
          (fun i => { MType := .MsgVote, To := i, From := r.id, Term := r.Term + 1,
                      Index := r.raftLog.lastIndex, LogTerm := r.raftLog.lastTerm })) := by
  have het : r.electionTimeout ≠ 0 := by
    intro h0
    unfold raft.campaign raft.becomeCandidate raft.reset
      raft.resetRandomizedElectionTimeout at h
    rw [if_neg hL] at h
    simp [show r.Term ≠ r.Term + 1 by omega, h0, bind, Except.bind] at h
  unfold raft.campaign at h
  rw [becomeCandidate_eq r het hL] at h
  simp only [bind, Except.bind] at h
  set rCand : raft :=
    { resetResult r (r.Term + 1) with Vote := r.id, state := .StateCandidate } with hrCand
  obtain ⟨hid, hTerm, hVote0, hmsgs, hstate0, hlog, het2, hmax, hvotes, hlead, hcq,
          hlen, hrand⟩ := resetResult_fields r (r.Term + 1)
  have hcv : rCand.votes = [] := by rw [hrCand]; simpa using hvotes
  rw [poll_fresh rCand rCand.id true hcv] at h
  dsimp only at h
  rw [show (if true = true then (1 : Nat) else 0) = 1 from rfl] at h
  set rP : raft := { rCand with votes := [(rCand.id, true)] } with hrP
  have hCid : rCand.id = r.id := by rw [hrCand]; simpa using hid
  have hPlen : rP.prs.length = r.prs.length := by
    rw [hrP, hrCand]
    simpa using hlen
  have hPq : rP.quorum = r.quorum := by
    unfold raft.quorum
    rw [hPlen]
  have hPTerm : rP.Term = r.Term + 1 := by rw [hrP, hrCand]; simpa using hTerm
  have hPVote : rP.Vote = r.id := by rw [hrP, hrCand]
  have hPid : rP.id = r.id := by rw [hrP, hrCand]; simpa using hid
  have hPmsgs : rP.msgs = r.msgs := by rw [hrP, hrCand]; simpa using hmsgs
  have hPlog : rP.raftLog = r.raftLog := by rw [hrP, hrCand]; simpa using hlog
  by_cases hq1 : r.quorum = 1
  · have hcond : ((1 : Nat) = rP.quorum) := by rw [hPq, hq1]
    rw [if_pos hcond] at h
    obtain ⟨hT1, hV1, hS1, hM1, -, -⟩ := becomeLeader_shape rP r' h
    exact ⟨by rw [hT1, hPTerm], by rw [hV1, hPVote], fun _ => ⟨hS1, by rw [hM1, hPmsgs]⟩,
           fun hne => absurd hq1 hne⟩
  · have hcond : ¬ ((1 : Nat) = rP.quorum) := by rw [hPq]; omega
    rw [if_neg hcond] at h
    simp only [Except.ok.injEq] at h
    rw [sendVoteAll_eq] at h
    have hkeys : (resetResult r (r.Term + 1)).prs.map (fun q : Nat × Progress => q.1) =
        r.prs.map (fun p => p.1) := by
      unfold resetResult
      by_cases hT : r.Term ≠ r.Term + 1 <;> simp [hT, List.map_map, Function.comp]
    have hvm : voteMsg rP = (fun i =>
        ({ MType := .MsgVote, To := i, From := r.id, Term := r.Term + 1,
           Index := r.raftLog.lastIndex, LogTerm := r.raftLog.lastTerm } : Message)) := by
      funext i
      simp only [voteMsg]
      rw [hPid, hPTerm, hPlog]
    refine ⟨?_, ?_, fun hc => absurd hc hq1, fun _ => ⟨?_, ?_, ?_⟩⟩
    · rw [← h]
      show rP.Term = _
      exact hPTerm
    · rw [← h]
    · rw [← h]
    · rw [← h]
      show rP.votes = _
      rw [hrP]
      simp only [hrCand, hid]
    · rw [← h]
      show rP.msgs ++ _ = _
      rw [hPmsgs, hvm, hPid]
      rw [hkeys]

/-- C5 witness: a three-node follower at term 1 campaigns: it becomes
candidate at term 2 with its own vote recorded, and solicits the two peers. -/
def rCamp : raft :=
  { id := 1, Term := 1, state := .StateFollower, electionTimeout := 10, rng := [3],
    maxInflight := 8,
    prs := [(1, { Next := 1 }), (2, { Next := 1 }), (3, { Next := 1 })] }

theorem c5_campaign_witness :
    ((rCamp.campaign).toOption.getD rCamp).Term = 2 ∧
    ((rCamp.campaign).toOption.getD rCamp).Vote = 1 ∧
    ((rCamp.campaign).toOption.getD rCamp).state = .StateCandidate ∧
    ((rCamp.campaign).toOption.getD rCamp).votes = [(1, true)] := by
  have hsome : (rCamp.campaign).toOption.isSome = true := by decide
  cases hc : rCamp.campaign with
  | error e =>
      rw [hc] at hsome
      simp [Except.toOption] at hsome
  | ok r' =>
      have hmain := c5_campaign rCamp r' (by decide) hc
      have hq : rCamp.quorum ≠ 1 := by decide
      obtain ⟨hT, hV, -, hrest⟩ := hmain
      obtain ⟨hS, hvotes, -⟩ := hrest hq
      show r'.Term = 2 ∧ r'.Vote = 1 ∧ r'.state = .StateCandidate ∧ r'.votes = [(1, true)]
      exact ⟨hT, hV, hS, hvotes⟩

/-- The state components that `bcastAppend`/`sendAppend` leave untouched:
the log, the id/Match content of the progress map, and the listed scalar
fields.  Sending appends only adds messages and moves per-peer `Next`,
pause, mode and inflight bookkeeping. -/
def framePreserved (r r1 : raft) : Prop :=
  r1.raftLog = r.raftLog ∧
  r1.prs.map (fun p => (p.1, p.2.Match)) = r.prs.map (fun p => (p.1, p.2.Match)) ∧
  r1.pendingConf = r.pendingConf ∧ r1.Term = r.Term ∧ r1.state = r.state ∧
  r1.leadTransferee = r.leadTransferee ∧ r1.id = r.id ∧ r1.maxInflight = r.maxInflight

theorem framePreserved_refl (r : raft) : framePreserved r r :=
  ⟨rfl, rfl, rfl, rfl, rfl, rfl, rfl, rfl⟩

theorem framePreserved_trans {r r1 r2 : raft}
    (h1 : framePreserved r r1) (h2 : framePreserved r1 r2) : framePreserved r r2 := by
  obtain ⟨a1, b1, c1, d1, e1, f1, g1, i1⟩ := h1
  obtain ⟨a2, b2, c2, d2, e2, f2, g2, i2⟩ := h2
  exact ⟨a2.trans a1, b2.trans b1, c2.trans c1, d2.trans d1, e2.trans e1,
         f2.trans f1, g2.trans g1, i2.trans i1⟩

theorem framePreserved_send (r : raft) (m : Message) : framePreserved r (r.send m) :=
  ⟨rfl, rfl, rfl, rfl, rfl, rfl, rfl, rfl⟩

theorem framePreserved_updatePr (r : raft) (id : Nat) (f : Progress → Progress)
    (hf : ∀ q, (f q).Match = q.Match) : framePreserved r (r.updatePr id f) := by
  refine ⟨rfl, ?_, rfl, rfl, rfl, rfl, rfl, rfl⟩
  show (r.prs.map fun p => if p.1 == id then (p.1, f p.2) else p).map _ = _
  rw [List.map_map]
  apply List.map_congr_left
  intro a _
  by_cases h : a.1 == id <;> simp [h, hf, Function.comp]

/-- `sendAppend` preserves the frame. -/
theorem sendAppend_frame (r : raft) (toId : Nat) (r1 : raft)
    (h : r.sendAppend toId = .ok r1) : framePreserved r r1 := by
  unfold raft.sendAppend at h
  repeat' split at h
  all_goals try simp at h
  all_goals cases h
  all_goals
    first
      | exact framePreserved_refl r
      | exact framePreserved_send _ _
      | (refine framePreserved_trans (framePreserved_updatePr r toId _ ?_)
          (framePreserved_send _ _)
         intro q
         rfl)

/-- The `bcastAppend` loop preserves the frame. -/
theorem sendAppendAll_frame (ids : List Nat) : ∀ r r1 : raft,
    r.sendAppendAll ids = .ok r1 → framePreserved r r1 := by
  induction ids with
  | nil =>
      intro r r1 h
      unfold raft.sendAppendAll at h
      cases h
      exact framePreserved_refl r
  | cons id ids ih =>
      intro r r1 h
      unfold raft.sendAppendAll at h
      split at h
      · exact ih r r1 h
      · split at h
        · simp at h
        · next r2 hr2 =>
            exact framePreserved_trans (sendAppend_frame r id r2 hr2) (ih r2 r1 h)

theorem bcastAppend_frame (r r1 : raft) (h : r.bcastAppend = .ok r1) :
    framePreserved r r1 :=
  sendAppendAll_frame _ r r1 h

/-- `commitCandidate` only depends on the id/Match content of the progress map. -/
theorem commitCandidate_congr (r r2 : raft)
    (h : r2.prs.map (fun p => (p.1, p.2.Match)) = r.prs.map (fun p => (p.1, p.2.Match))) :
    r2.commitCandidate = r.commitCandidate := by
  unfold raft.commitCandidate raft.quorum
  have hm : r2.prs.map (fun p => p.2.Match) = r.prs.map (fun p => p.2.Match) := by
    have := congrArg (List.map (fun q : Nat × Nat => q.2)) h
    simpa [List.map_map, Function.comp] using this
  have hl : r2.prs.length = r.prs.length := by
    simpa using congrArg List.length h
  rw [hm, hl]

/-- `sortDesc` preserves length. -/
theorem sortDesc_length (l : List Nat) : (sortDesc l).length = l.length := by
  induction l with
  | nil => rfl
  | cons x xs ih =>
      have hins : ∀ (y : Nat) (m : List Nat), (insertDesc y m).length = m.length + 1 := by
        intro y m
        induction m with
        | nil => rfl
        | cons z zs ihm =>
            unfold insertDesc
            split
            · rfl
            · simpa [List.length_cons] using ihm
      simp [sortDesc, hins, ih]

/-- A nonempty progress map always yields a commit candidate. -/
theorem commitCandidate_isSome (r : raft) (h : r.prs ≠ []) :
    ∃ mci, r.commitCandidate = some mci := by
  unfold raft.commitCandidate raft.quorum
  have hlen : (sortDesc (r.prs.map (fun p => p.2.Match))).length = r.prs.length := by
    rw [sortDesc_length, List.length_map]
  have hpos : 0 < r.prs.length := List.length_pos.mpr h
  have hlt : r.prs.length / 2 + 1 - 1 <
      (sortDesc (r.prs.map (fun p => p.2.Match))).length := by
    rw [hlen]
    omega
  exact ⟨_, List.get?_eq_get hlt⟩

/-- Lookup of a freshly inserted progress entry. -/
theorem prsLookup_setProgress_fresh (r : raft) (x m n : Nat)
    (h : prsLookup r.prs x = none) :
    prsLookup (r.setProgress x m n).prs x =
      some { Next := n, Match := m, ins := newInflights r.maxInflight } := by
  unfold raft.setProgress
  have hfind : r.prs.find? (fun p => p.1 == x) = none := by
    unfold prsLookup at h
    cases hf : r.prs.find? (fun p => p.1 == x)
    · rfl
    · rw [hf] at h
      simp at h
  rw [show (prsLookup r.prs x).isSome = false by rw [h]; rfl]
  simp only [Bool.false_eq_true, if_false]
  unfold prsLookup
  rw [List.find?_append, hfind]
  simp

/-- Keys of the progress map, read off the id/Match view. -/
theorem keys_of_matchMap (r r1 : raft)
    (h : r1.prs.map (fun p => (p.1, p.2.Match)) = r.prs.map (fun p => (p.1, p.2.Match))) :
    r1.prs.map (fun p => p.1) = r.prs.map (fun p => p.1) := by
  have := congrArg (List.map (fun q : Nat × Nat => q.1)) h
  simpa [List.map_map, Function.comp] using this

/-- A key absent from the key list is not found by `prsLookup`. -/
theorem prsLookup_none_of_keys (prs : List (Nat × Progress)) (x : Nat)
    (h : ∀ k ∈ prs.map (fun p => p.1), k ≠ x) : prsLookup prs x = none := by
  unfold prsLookup
  rw [List.find?_eq_none.mpr]
  · rfl
  · intro p hp
    simpa using h p.1 (List.mem_map.mpr ⟨p, hp, rfl⟩)

/-- Structure eta for the two fields `removeNode` writes unconditionally. -/
theorem raft_eta_del (r : raft) (X : List (Nat × Progress)) (hX : X = r.prs)
    (hpc : r.pendingConf = false) :
    ({ r with prs := X, pendingConf := false } : raft) = r := by
  subst hX
  rw [← hpc]

/-- Structure eta for `abortLeaderTransfer` when the field is already clear. -/
theorem raft_eta_abort (r : raft) (h : r.leadTransferee = 0) :
    r.abortLeaderTransfer = r := by
  unfold raft.abortLeaderTransfer
  rw [← h]

/-- `maybeCommit` in explicit form on a known commit candidate. -/
theorem maybeCommit_eq (r : raft) (mci : Nat) (h : r.commitCandidate = some mci) :
    r.maybeCommit = .ok ((r.raftLog.maybeCommit mci r.Term).1,
      { r with raftLog := (r.raftLog.maybeCommit mci r.Term).2 }) := by
  unfold raft.maybeCommit
  rw [h]

/-- The log part of `raftLog.maybeCommit` leaves everything but `committed`
unchanged, and a repeat call cannot advance again. -/
theorem raftLog_maybeCommit_lastIndex (l : raftLog) (mci t : Nat) :
    ((l.maybeCommit mci t).2).lastIndex = l.lastIndex ∧
    ((l.maybeCommit mci t).2).ents = l.ents ∧
    ((l.maybeCommit mci t).2).snapIndex = l.snapIndex := by
  unfold raftLog.maybeCommit
  split <;> simp [raftLog.lastIndex]

/-- A redundant `addNode` returns immediately. -/
theorem addNode_mem (r : raft) (x : Nat) (h : (prsLookup r.prs x).isSome = true) :
    r.addNode x = r := by
  unfold raft.addNode
  rw [if_pos h]

/-- `addNode` of a genuinely new node installs a fresh progress entry with
`match = 0`, `next = last_index + 1` and clears `pendingConf`. -/
theorem addNode_fresh (r : raft) (x : Nat) (h : prsLookup r.prs x = none) :
    prsLookup (r.addNode x).prs x =
      some { Match := 0, Next := r.raftLog.lastIndex + 1, ins := newInflights r.maxInflight } ∧
    (r.addNode x).pendingConf = false := by
  unfold raft.addNode
  rw [if_neg (by simp [h])]
  exact ⟨prsLookup_setProgress_fresh r x 0 (r.raftLog.lastIndex + 1) h, rfl⟩


/-- The core fact about a successful `removeNodeRest` on a state whose
pending-configuration flag is clear and whose progress map no longer holds
`x`: the flag stays clear, the call is idempotent, and `x` stays absent. -/
theorem removeNodeRest_ok (rA : raft) (x : Nat) (r1 : raft)
    (hpc : rA.pendingConf = false)
    (hkeysA : ∀ k ∈ rA.prs.map (fun p => p.1), k ≠ x)
    (h : removeNodeRest rA x = .ok r1) :
    r1.pendingConf = false ∧ removeNodeRest r1 x = .ok r1 ∧
    prsLookup r1.prs x = none ∧
    r1.prs.map (fun p => p.1) = rA.prs.map (fun p => p.1) := by
  unfold removeNodeRest at h
  by_cases hE : rA.prs.isEmpty = true
  · rw [if_pos hE] at h
    injection h with h
    subst h
    refine ⟨hpc, ?_, prsLookup_none_of_keys _ _ hkeysA, rfl⟩
    unfold removeNodeRest
    rw [if_pos hE]
  · rw [if_neg hE] at h
    simp only [bind, Except.bind] at h
    have hne : rA.prs ≠ [] := fun h0 => hE (by rw [h0]; rfl)
    obtain ⟨mci, hmci⟩ := commitCandidate_isSome rA hne
    rw [maybeCommit_eq rA mci hmci] at h
    dsimp only at h
    have hsplit : ∃ rB : raft,
        framePreserved { rA with raftLog := (rA.raftLog.maybeCommit mci rA.Term).2 } rB ∧
        ((r1 = rB ∧ ¬ (rB.state = .StateLeader ∧ rB.leadTransferee = x)) ∨
         (r1 = rB.abortLeaderTransfer ∧ rB.state = .StateLeader ∧ rB.leadTransferee = x)) := by
      by_cases hc1 : (rA.raftLog.maybeCommit mci rA.Term).1 = true
      · rw [if_pos hc1] at h
        cases hbc : raft.bcastAppend
            { rA with raftLog := (rA.raftLog.maybeCommit mci rA.Term).2 } with
        | error e =>
            rw [hbc] at h
            simp at h
        | ok rB =>
            rw [hbc] at h
            dsimp only at h
            by_cases hcd : rB.state = .StateLeader ∧ rB.leadTransferee = x
            · rw [if_pos hcd] at h
              injection h with h
              subst h
              exact ⟨rB, bcastAppend_frame _ _ hbc, Or.inr ⟨rfl, hcd⟩⟩
            · rw [if_neg hcd] at h
              injection h with h
              subst h
              exact ⟨rB, bcastAppend_frame _ _ hbc, Or.inl ⟨rfl, hcd⟩⟩
      · rw [if_neg hc1] at h
        by_cases hcd : ({ rA with raftLog := (rA.raftLog.maybeCommit mci rA.Term).2 } : raft).state
            = .StateLeader ∧
            ({ rA with raftLog := (rA.raftLog.maybeCommit mci rA.Term).2 } : raft).leadTransferee = x
        · rw [if_pos hcd] at h
          injection h with h
          subst h
          exact ⟨_, framePreserved_refl _, Or.inr ⟨rfl, hcd⟩⟩
        · rw [if_neg hcd] at h
          injection h with h
          subst h
          exact ⟨_, framePreserved_refl _, Or.inl ⟨rfl, hcd⟩⟩
    obtain ⟨rB, hF, hcase⟩ := hsplit
    obtain ⟨hFlog, hFmap, hFpc, hFterm, hFstate, hFlt, hFid, hFmax⟩ := hF
    have hBlog : rB.raftLog = (rA.raftLog.maybeCommit mci rA.Term).2 := by
      simpa using hFlog
    have hBmap : rB.prs.map (fun p => (p.1, p.2.Match)) =
        rA.prs.map (fun p => (p.1, p.2.Match)) := by
      simpa using hFmap
    have hBpc : rB.pendingConf = false := by
      simp only at hFpc
      rw [hFpc]
      exact hpc
    have hBterm : rB.Term = rA.Term := by
      simpa using hFterm
    have hP1 : r1.raftLog = (rA.raftLog.maybeCommit mci rA.Term).2 := by
      rcases hcase with ⟨rfl, -⟩ | ⟨rfl, -⟩
      · exact hBlog
      · simpa [raft.abortLeaderTransfer] using hBlog
    have hP2 : r1.prs.map (fun p => (p.1, p.2.Match)) =
        rA.prs.map (fun p => (p.1, p.2.Match)) := by
      rcases hcase with ⟨rfl, -⟩ | ⟨rfl, -⟩
      · exact hBmap
      · simpa [raft.abortLeaderTransfer] using hBmap
    have hP3 : r1.pendingConf = false := by
      rcases hcase with ⟨rfl, -⟩ | ⟨rfl, -⟩
      · exact hBpc
      · simpa [raft.abortLeaderTransfer] using hBpc
    have hP4 : r1.Term = rA.Term := by
      rcases hcase with ⟨rfl, -⟩ | ⟨rfl, -⟩
      · exact hBterm
      · simpa [raft.abortLeaderTransfer] using hBterm
    have hLTor : r1.leadTransferee = 0 ∨
        ¬ (r1.state = .StateLeader ∧ r1.leadTransferee = x) := by
      rcases hcase with ⟨rfl, hcd⟩ | ⟨rfl, -, -⟩
      · exact Or.inr hcd
      · left
        simp [raft.abortLeaderTransfer]
    have hkeys1 : r1.prs.map (fun p => p.1) = rA.prs.map (fun p => p.1) :=
      keys_of_matchMap rA r1 hP2
    have hlen1 : r1.prs.length = rA.prs.length := by
      have := congrArg List.length hkeys1
      simpa using this
    have hE1 : ¬ (r1.prs.isEmpty = true) := by
      rw [List.isEmpty_iff]
      intro h0
      rw [h0] at hlen1
      exact hne (List.length_eq_zero.mp hlen1.symm)
    have hnone1 : prsLookup r1.prs x = none :=
      prsLookup_none_of_keys r1.prs x (fun k hk => by
        rw [hkeys1] at hk
        exact hkeysA k hk)
    refine ⟨hP3, ?_, hnone1, hkeys1⟩
    unfold removeNodeRest
    rw [if_neg hE1]
    simp only [bind, Except.bind]
    have hmci1 : r1.commitCandidate = some mci := by
      rw [commitCandidate_congr rA r1 hP2]
      exact hmci
    rw [maybeCommit_eq r1 mci hmci1]
    have hsecond : r1.raftLog.maybeCommit mci r1.Term = (false, r1.raftLog) := by
      rw [hP1, hP4]
      exact raftLog_maybeCommit_second rA.raftLog mci rA.Term
    rw [hsecond]
    dsimp only
    rw [if_neg (show ¬ (false = true) by simp)]
    have hetar : ({ r1 with raftLog := r1.raftLog } : raft) = r1 := rfl
    rw [hetar]
    rcases hLTor with h0 | hn
    · by_cases hcnd : r1.state = .StateLeader ∧ r1.leadTransferee = x
      · rw [if_pos hcnd, raft_eta_abort r1 h0]
      · rw [if_neg hcnd]
    · rw [if_neg hn]

/-- C6 (amended): `addNode` and `removeNode` are idempotent; `removeNode`
always leaves `pendingConf` false, and so does an `addNode` that actually
inserts a node (a redundant `addNode` returns with the whole state, this
flag included, unchanged); a fresh `addNode x` installs `match = 0`,
`next = last_index + 1`, so `removeNode x` followed by `addNode x` restores
`x` with exactly those values. -/
theorem c6_membership (r : raft) (x : Nat) :
    (r.addNode x).addNode x = r.addNode x ∧
    ((prsLookup r.prs x).isNone = true →
        prsLookup (r.addNode x).prs x =
          some { Match := 0, Next := r.raftLog.lastIndex + 1,
                 ins := newInflights r.maxInflight } ∧
        (r.addNode x).pendingConf = false) ∧
    (∀ r1, r.removeNode x = .ok r1 →
        r1.pendingConf = false ∧
        r1.removeNode x = .ok r1 ∧
        prsLookup (r1.addNode x).prs x =
          some { Match := 0, Next := r1.raftLog.lastIndex + 1,
                 ins := newInflights r1.maxInflight } ∧
        (r1.addNode x).pendingConf = false) := by
  refine ⟨?_, ?_, ?_⟩
  · by_cases hx : (prsLookup r.prs x).isSome = true
    · rw [addNode_mem r x hx, addNode_mem r x hx]
    · have hnone : prsLookup r.prs x = none := by
        cases hp : prsLookup r.prs x
        · rfl
        · rw [hp] at hx
          simp at hx
      have h1 := (addNode_fresh r x hnone).1
      apply addNode_mem
      rw [h1]
      rfl
  · intro hx
    have hnone : prsLookup r.prs x = none := by
      cases hp : prsLookup r.prs x
      · rfl
      · rw [hp] at hx
        simp at hx
    exact addNode_fresh r x hnone
  · intro r1 h
    unfold raft.removeNode at h
    have hpc0 : ({ r.delProgress x with pendingConf := false } : raft).pendingConf = false := rfl
    have hkeys0 : ∀ k ∈ ({ r.delProgress x with pendingConf := false } : raft).prs.map
        (fun p => p.1), k ≠ x := by
      intro k hk
      simp only [raft.delProgress, List.mem_map] at hk
      obtain ⟨p, hp, hpk⟩ := hk
      have := List.of_mem_filter hp
      rw [← hpk]
      simpa using this
    obtain ⟨hpc1, hidem, hnone1, hkeys1⟩ := removeNodeRest_ok _ x r1 hpc0 hkeys0 h
    refine ⟨hpc1, ?_, (addNode_fresh r1 x hnone1).1, (addNode_fresh r1 x hnone1).2⟩
    unfold raft.removeNode
    have hfil1 : r1.prs.filter (fun p => p.1 != x) = r1.prs :=
      List.filter_eq_self.mpr (fun p hp => by
        have hk : p.1 ∈ r1.prs.map (fun q => q.1) := List.mem_map.mpr ⟨p, hp, rfl⟩
        rw [hkeys1] at hk
        simpa using hkeys0 p.1 hk)
    have heta1 : ({ r1.delProgress x with pendingConf := false } : raft) = r1 :=
      raft_eta_del r1 (r1.delProgress x).prs hfil1 hpc1
    rw [heta1]
    exact hidem

/-- C6 counterexample state: node 1 is already present and a configuration
change is pending. -/
def rConf : raft :=
  { id := 1, Term := 2, state := .StateLeader, lead := 1, pendingConf := true,
    raftLog := { ents := [{ Term := 2, Index := 1 }] }, maxInflight := 8,
    prs := [(1, { Match := 1, Next := 2, ins := newInflights 8 }),
            (2, { Match := 0, Next := 2, ins := newInflights 8 })] }

/-- C6 counterexample: the claim says `pending_conf` is false after ANY
`addNode` call, but a redundant `addNode` of an existing node returns with
the flag still set. -/
theorem c6_addNode_pendingConf_counterexample :
    rConf.addNode 1 = rConf ∧ rConf.pendingConf = true := by
  constructor
  · rfl
  · rfl

/-- C6 witness: removing node 2 from `rConf` and adding it back restores it
with `match = 0`, `next = last_index + 1`; both calls are idempotent. -/
theorem c6_membership_witness :
    (rConf.addNode 3).addNode 3 = rConf.addNode 3 ∧
    (∀ r1, rConf.removeNode 2 = .ok r1 →
        r1.pendingConf = false ∧
        r1.removeNode 2 = .ok r1 ∧
        prsLookup (r1.addNode 2).prs 2 =
          some { Match := 0, Next := r1.raftLog.lastIndex + 1,
                 ins := newInflights r1.maxInflight } ∧
        (r1.addNode 2).pendingConf = false) ∧
    ∃ r1, rConf.removeNode 2 = .ok r1 :=
  ⟨(c6_membership rConf 3).1, (c6_membership rConf 2).2.2, ⟨_, rfl⟩⟩
